import Mathlib

/-!
Verification of the annotation-transfer engine of `ncbi.py` (`tbl_transfer`).

The Python function reads an NCBI TBL document line by line, classifies each
line (blank / header / coordinate / qualifier), remaps coordinates through an
external coordinate translator (`interhost.CoordMapper`, modelled abstractly
below since it lives outside this repository's core file), and writes output
lines.  We embed the loop body as a step function `processLine` over an
explicit `TState` (the Python locals `seqid`, `altid`, `feature_keep`, which
may be undefined before the first header — modelled with `Option`), and the
whole run as `runLines`, which returns the lines written before any exception
together with the exception, if one was raised.
-/

namespace Ncbi

/-! ### Character-level string primitives

Python string operations are modelled structurally on the underlying
character list so that every definition reduces inside the kernel.
All document content here is ASCII, so character counts coincide with
Python's code-point indexing. -/

/-- Models Python `s.startswith(pre)`: `pre` is a prefix of `s`. -/
def strStarts (s pre : String) : Bool :=
  pre.data.isPrefixOf s.data

/-- Models Python `s.endswith(suf)`: `suf` is a suffix of `s`. -/
def strEnds (s suf : String) : Bool :=
  suf.data.isSuffixOf s.data

/-- Drop the first `n` characters — models Python `s[n:]`. -/
def strDrop (s : String) (n : Nat) : String :=
  String.mk (s.data.drop n)

/-- Drop the last character — models Python `s[:-1]`. -/
def strInit (s : String) : String :=
  String.mk s.data.dropLast

/-- Strip whitespace from both ends — models Python `s.strip()`. -/
def strTrim (s : String) : String :=
  String.mk (((s.data.dropWhile Char.isWhitespace).reverse.dropWhile Char.isWhitespace).reverse)

/-- Character length of `s` — models Python `len(s)`. -/
def strLen (s : String) : Nat :=
  s.data.length

/-- Split a character list at every tab.  Returns the first segment and the
remaining segments, so the result is never empty — models Python
`s.split('\t')`, which keeps empty segments. -/
def splitTabsChars : List Char → List Char × List (List Char)
  | [] => ([], [])
  | c :: rest =>
    let p := splitTabsChars rest
    if c = '\t' then ([], p.1 :: p.2) else (c :: p.1, p.2)

/-- Models Python `line.split('\t')`. -/
def splitTabs (s : String) : List String :=
  let p := splitTabsChars s.data
  String.mk p.1 :: p.2.map String.mk

/-- Join character-list segments with a tab between consecutive segments. -/
def joinTabsChars : List Char → List (List Char) → List Char
  | g, [] => g
  | g, g1 :: gs => g ++ '\t' :: joinTabsChars g1 gs

/-- Models Python `'\t'.join(row)` on a non-empty row given as head and tail. -/
def joinTabs : String → List String → String
  | x, [] => x
  | x, y :: ys => x ++ "\t" ++ joinTabs y ys

/-- Models Python `sub in s` on the character lists:
`sub` occurs as a contiguous substring of `cs`. -/
def containsSub : List Char → List Char → Bool
  | [], sub => sub.isEmpty
  | c :: rest, sub => sub.isPrefixOf (c :: rest) || containsSub rest sub

/-- Models Python `'protein_id' in line`. -/
def hasProteinId (line : String) : Bool :=
  containsSub line.data "protein_id".data

/-- Numeric value of a list of decimal digits. -/
def digitsVal (cs : List Char) : Nat :=
  cs.foldl (fun n c => 10 * n + (c.toNat - 48)) 0

/-- Parse a signed decimal integer from a character list:
an optional sign followed by one or more digits, nothing else. -/
def pyIntChars : List Char → Option Int
  | '-' :: rest =>
    if rest ≠ [] ∧ rest.all Char.isDigit then some (-(digitsVal rest : Int)) else none
  | '+' :: rest =>
    if rest ≠ [] ∧ rest.all Char.isDigit then some ((digitsVal rest : Int)) else none
  | cs =>
    if cs ≠ [] ∧ cs.all Char.isDigit then some ((digitsVal cs : Int)) else none

/-- Models Python `int(s)`: surrounding whitespace is stripped, then an
optional sign and decimal digits are accepted; anything else raises
(`none`). -/
def pyInt (s : String) : Option Int :=
  pyIntChars (strTrim s).data

/-! ### The external collaborators

Modelled from the spec: the coordinate translator (`interhost.CoordMapper`,
outside this file's source) provides `translate_id(reference_id) ->
alternate_id`, failing outside its known domain, and
`translate_position(reference_id, position, bias) -> Optional[position]`,
returning nothing when the position has no alternate-assembly correspondent.
The Python call `cmap.mapAtoB(seqid)` is `mapId`; the second component of
`cmap.mapAtoB(seqid, pos, bias)` is `mapPos`. -/
structure CoordMapper where
  mapId : String → Option String
  mapPos : String → Int → Int → Option Int

/-- Modelled from the spec: `fasta_chrlens` (whose body reads a FASTA file via
Bio.SeqIO, outside the shallow embedding) produces a finite map from sequence
id to sequence length; we pass that map as a function into the transfer. -/
abbrev Chrlens : Type := String → Option Nat

/-- The exceptions `tbl_transfer` can raise, one constructor per `raise`
site or per Python runtime error reachable in the loop body. -/
inductive Err where
  /-- Raised as "not sure how to handle a non-Feature record". -/
  | notFeature
  /-- Raised as "reference annotation does not refer to a GenBank accession". -/
  | notGenbank
  /-- Raised as "this line has only one column?". -/
  | oneColumn
  /-- ValueError from `int()` on a coordinate column. -/
  | badInt
  /-- NameError: `seqid` read before any header line defined it. -/
  | nameSeqid
  /-- NameError: `altid` read before any header line defined it. -/
  | nameAltid
  /-- NameError: `feature_keep` read before any line defined it. -/
  | nameFeatureKeep
  /-- KeyError from `cmap.mapAtoB(seqid)`: accession outside the known domain. -/
  | keyMapId
  /-- KeyError from `alt_chrlens[altid]`. -/
  | keyChrlen
  deriving DecidableEq

/-- The loop-carried Python locals of `tbl_transfer`.  Each is `none` while
the corresponding variable is still undefined. -/
structure TState where
  seqid : Option String
  altid : Option String
  feature_keep : Option Bool
  deriving DecidableEq

/-- State at loop entry: no local defined yet. -/
def initState : TState := ⟨none, none, none⟩

/-- Python truthiness of an int-or-None value: `None` and `0` are falsy. -/
def truthy : Option Int → Bool
  | none => false
  | some n => n != 0

/-- The `gb|ACCESSION|` wrapper test:
`seqid.startswith('gb|') and seqid.endswith('|') and len(seqid)>4`. -/
def wrapperOK (sid : String) : Bool :=
  strStarts sid "gb|" && strEnds sid "|" && decide (strLen sid > 4)

/-- Header branch of the loop (`line.startswith('>')`):
check the `>Feature ` form, unwrap the accession, translate it, and emit the
rewritten header; defines all three locals. -/
def headerStep (cmap : CoordMapper) (line : String) : Except Err (TState × List String) :=
  if strStarts line ">Feature " then
    if wrapperOK (strTrim (strDrop line 9)) then
      match cmap.mapId (strInit (strDrop (strTrim (strDrop line 9)) 3)) with
      | none => .error .keyMapId
      | some altid =>
        .ok (⟨some (strInit (strDrop (strTrim (strDrop line 9)) 3)), some altid, some true⟩,
             [">Feature " ++ altid])
    else .error .notGenbank
  else .error .notFeature

/-- Three-way classification of the two mapped endpoints, applied after the
strand-biased translator calls: both truthy → keep and rewrite; both `None` →
drop; otherwise the clip policy.  Mirrors lines 65–81 of the source,
including that the clip branch leaves `feature_keep` unchanged. -/
def coordOutcome (chrlens : Chrlens) (oob_clip : Bool) (st : TState)
    (m0 m1 : Option Int) (rest : List String) : Except Err (TState × List String) :=
  if truthy m0 && truthy m1 then
    .ok ({ st with feature_keep := some true },
         [joinTabs (toString (m0.getD 0)) (toString (m1.getD 0) :: rest)])
  else if m0.isNone && m1.isNone then
    .ok ({ st with feature_keep := some false }, [])
  else if oob_clip then
    match m1 with
    | some b =>
      .ok (st, [joinTabs (match m0 with | none => "<1" | some a => toString a)
                  (toString b :: rest)])
    | none =>
      match st.altid with
      | none => .error .nameAltid
      | some aid =>
        match chrlens aid with
        | none => .error .keyChrlen
        | some len =>
          .ok (st, [joinTabs (match m0 with | none => "<1" | some a => toString a)
                      ((">" ++ toString len) :: rest)])
  else
    .ok ({ st with feature_keep := some false }, [])

/-- Coordinate branch of the loop (non-blank, no `>`, no leading tab):
split on tabs, parse the two endpoints, read `seqid`, call the translator
with the strand-dependent biases, and classify. -/
def coordStep (cmap : CoordMapper) (chrlens : Chrlens) (oob_clip : Bool)
    (st : TState) (line : String) : Except Err (TState × List String) :=
  match splitTabs line with
  | c0 :: c1 :: rest =>
    match pyInt c0 with
    | none => .error .badInt
    | some r0 =>
      match pyInt c1 with
      | none => .error .badInt
      | some r1 =>
        match st.seqid with
        | none => .error .nameSeqid
        | some sid =>
          if r1 ≥ r0 then
            coordOutcome chrlens oob_clip st
              (cmap.mapPos sid r0 (-1)) (cmap.mapPos sid r1 1) rest
          else
            coordOutcome chrlens oob_clip st
              (cmap.mapPos sid r0 1) (cmap.mapPos sid r1 (-1)) rest
  | _ => .error .oneColumn

/-- Qualifier branch of the loop (leading tab): read `feature_keep`; a
dropped feature swallows the line, a retained one emits it unless it
mentions `protein_id`. -/
def qualStep (st : TState) (line : String) : Except Err (TState × List String) :=
  match st.feature_keep with
  | none => .error .nameFeatureKeep
  | some fk =>
    if fk then
      if hasProteinId line then .ok (st, []) else .ok (st, [line])
    else .ok (st, [])

/-- One iteration of the `tbl_transfer` loop on an already
terminator-stripped line: returns the updated locals and the lines written
for this input line (the final `outf.write(line+'\n')`), or the exception
raised.  Note the blank-line branch is `pass`, so the write still runs. -/
def processLine (cmap : CoordMapper) (chrlens : Chrlens) (oob_clip : Bool)
    (st : TState) (line : String) : Except Err (TState × List String) :=
  if line = "" then
    .ok (st, [line])
  else if strStarts line ">" then
    headerStep cmap line
  else if !strStarts line "\t" then
    coordStep cmap chrlens oob_clip st line
  else
    qualStep st line

/-- Run the loop over the remaining document from state `st`.  The first
component collects every line written before the run ends; the second is the
exception that aborted it, if any (output already written stays written). -/
def runLines (cmap : CoordMapper) (chrlens : Chrlens) (oob_clip : Bool) :
    TState → List String → List String × Option Err
  | _, [] => ([], none)
  | st, l :: ls =>
    match processLine cmap chrlens oob_clip st l with
    | .error e => ([], some e)
    | .ok (st', out) =>
      let r := runLines cmap chrlens oob_clip st' ls
      (out ++ r.1, r.2)

/-- The whole transfer on a document given as its list of
terminator-stripped lines: `tbl_transfer`'s loop from the initial state. -/
def tbl_transfer (cmap : CoordMapper) (chrlens : Chrlens) (oob_clip : Bool)
    (doc : List String) : List String × Option Err :=
  runLines cmap chrlens oob_clip initState doc

/-! ### Spec-side line classification and error taxonomy

The following definitions restate the spec's line classifier and error
conditions in order-free form; the theorems below compare them with the
behaviour of `processLine`. -/

/-- The line begins with the sequence-identifier marker. -/
def headerShape (line : String) : Bool :=
  strStarts line ">"

/-- Well-formed Header line: the feature-block marker followed by an
accession in the `gb|ACCESSION|` wrapper convention. -/
def headerWF (line : String) : Bool :=
  strStarts line ">Feature " && wrapperOK (strTrim (strDrop line 9))

/-- The accession extracted from a Header line, wrapper removed. -/
def headerAcc (line : String) : String :=
  strInit (strDrop (strTrim (strDrop line 9)) 3)

/-- Malformed Header line per the spec: marker present but not of the
feature-block form, or the accession not in the wrapper convention. -/
def malformedHeader (line : String) : Bool :=
  headerShape line && !headerWF line

/-- Coordinate line shape: non-blank, not a header, not indented. -/
def coordShape (line : String) : Bool :=
  (line != "") && !strStarts line ">" && !strStarts line "\t"

/-- The two integer endpoints of a well-formed Coordinate line. -/
def coordEnds (line : String) : Option (Int × Int) :=
  if coordShape line then
    match splitTabs line with
    | c0 :: c1 :: _ =>
      match pyInt c0, pyInt c1 with
      | some a, some b => some (a, b)
      | _, _ => none
    | _ => none
  else none

/-- Malformed Coordinate line per the spec: fewer than two tab-separated
columns, or one of the first two columns not an integer. -/
def malformedCoord (line : String) : Bool :=
  coordShape line && (coordEnds line).isNone

/-- Qualifier line shape: begins with the indentation character. -/
def qualShape (line : String) : Bool :=
  strStarts line "\t"

/-- The two translator results for endpoints `(a, b)` with the
strand-dependent outward biases: forward (`b ≥ a`) uses `-1` for the start
and `1` for the end; reverse swaps them. -/
def biasedMaps (cmap : CoordMapper) (sid : String) (a b : Int) :
    Option Int × Option Int :=
  if b ≥ a then (cmap.mapPos sid a (-1), cmap.mapPos sid b 1)
  else (cmap.mapPos sid a 1, cmap.mapPos sid b (-1))

/-- In clip mode a Coordinate line whose second endpoint is unmapped (and
first endpoint mapped) consults the alternate-length table; this condition
holds when that lookup cannot be made. -/
def clipLenMissing (cmap : CoordMapper) (chrlens : Chrlens) (st : TState)
    (line : String) : Bool :=
  match coordEnds line, st.seqid with
  | some (a, b), some sid =>
    let m := biasedMaps cmap sid a b
    m.2.isNone && !m.1.isNone &&
      (match st.altid with
       | none => true
       | some aid => (chrlens aid).isNone)
  | _, _ => false

/-- The spec-side failure condition for one line in context `st`, written as
an order-free disjunction over the error taxonomy. -/
def errCond (cmap : CoordMapper) (chrlens : Chrlens) (oob_clip : Bool)
    (st : TState) (line : String) : Bool :=
  malformedHeader line
  || (headerShape line && headerWF line && (cmap.mapId (headerAcc line)).isNone)
  || malformedCoord line
  || ((coordEnds line).isSome && st.seqid.isNone)
  || (oob_clip && clipLenMissing cmap chrlens st line)
  || (qualShape line && st.feature_keep.isNone)

/-- Whether a step outcome is an exception. -/
def isErrB : Except Err (TState × List String) → Bool
  | .error _ => true
  | .ok _ => false

/-- Whether a run ended in an undefined-variable (NameError) failure. -/
def isNameErr : Option Err → Bool
  | some .nameSeqid => true
  | some .nameAltid => true
  | some .nameFeatureKeep => true
  | _ => false

/-- All three loop locals are defined. -/
def stOK (st : TState) : Bool :=
  st.seqid.isSome && st.altid.isSome && st.feature_keep.isSome

/-- The public-interface precondition: a Header line precedes every
Coordinate and Qualifier line (the flag records whether a Header has
already been seen). -/
def headerLed : Bool → List String → Bool
  | _, [] => true
  | h, l :: ls =>
    if l = "" then headerLed h ls
    else if strStarts l ">" then headerLed true ls
    else h && headerLed h ls

/-! ### Definitions for the round-trip claim -/

/-- The identity translator: every identifier maps to itself and every
position maps to itself under every bias. -/
def idMapper : CoordMapper :=
  ⟨fun s => some s, fun _ p _ => some p⟩

/-- The accession-wrapper rewriting the transfer applies to Header lines
(and to no other line). -/
def rewriteHeaderLine (l : String) : String :=
  if strStarts l ">" then ">Feature " ++ headerAcc l else l

/-- A coordinate column that is a canonically written nonzero integer
(so that remapping it through the identity reprints it identically). -/
def canonCoord (c : String) : Bool :=
  match pyInt c with
  | some v => (toString v == c) && (v != 0)
  | none => false

/-- One line of a document on which the identity transfer is lossless:
blank, a well-formed Header, a Coordinate line with canonical endpoints
(only after a Header), or a Qualifier line without the protein-identifier
marker (only after a Header). -/
def niceLine (h : Bool) (l : String) : Bool :=
  if l = "" then true
  else if strStarts l ">" then headerWF l
  else if !strStarts l "\t" then
    h && (match splitTabs l with
          | c0 :: c1 :: _ => canonCoord c0 && canonCoord c1
          | _ => false)
  else h && !hasProteinId l

/-- Every line of the document is nice, threading whether a Header has been
seen. -/
def wellBehaved : Bool → List String → Bool
  | _, [] => true
  | h, l :: ls => niceLine h l && wellBehaved (h || strStarts l ">") ls

/-! ### Concrete translators and length tables for witnesses -/

/-- A translator that knows only reference sequence "X" (as alternate "Y")
and maps only position 3 (to 3); every other position is unmapped. -/
def gapMapper : CoordMapper :=
  ⟨fun s => if s = "X" then some "Y" else none,
   fun _ p _ => if p = 3 then some 3 else none⟩

/-- A translator mapping identifiers to themselves but no position at all. -/
def noneMapper : CoordMapper :=
  ⟨fun s => some s, fun _ _ _ => none⟩

/-- A translator mapping identifiers to themselves and every positive
position to itself; nonpositive positions are unmapped. -/
def posMapper : CoordMapper :=
  ⟨fun s => some s, fun _ p _ => if 1 ≤ p then some p else none⟩

/-- A translator whose identifier domain is empty. -/
def noIdMapper : CoordMapper :=
  ⟨fun _ => none, fun _ p _ => some p⟩

/-- A length table with a single entry: sequence "Y" has length 580. -/
def demoLens : Chrlens :=
  fun s => if s = "Y" then some 580 else none

/-- An empty length table. -/
def noLens : Chrlens :=
  fun _ => none

end Ncbi

/-! ## Theorems -/

namespace Ncbi

theorem strStarts_tab {q : String} (h : strStarts q "\t" = true) :
    q ≠ "" ∧ strStarts q ">" = false := by
  have hdt : ("\t" : String).data = ['\t'] := rfl
  have hgt : (">" : String).data = ['>'] := rfl
  unfold strStarts at h ⊢
  rcases hd : q.data with _ | ⟨c, cs⟩
  · rw [hdt, hd] at h
    simp [List.isPrefixOf] at h
  · rw [hdt] at h
    simp only [hd] at h
    simp only [hgt]
    simp [List.isPrefixOf] at h ⊢
    constructor
    · intro hq
      rw [hq] at hd
      have h0 : ([] : List Char) = c :: cs := hd
      exact List.noConfusion h0
    · subst h
      decide


theorem processLine_coord (cmap : CoordMapper) (chrlens : Chrlens) (clip : Bool)
    (st : TState) (line c0 c1 : String) (rest : List String) (r0 r1 : Int) (sid : String)
    (hne : line ≠ "") (hgt : strStarts line ">" = false) (htb : strStarts line "\t" = false)
    (hsp : splitTabs line = c0 :: c1 :: rest)
    (h0 : pyInt c0 = some r0) (h1 : pyInt c1 = some r1)
    (hsid : st.seqid = some sid) :
    processLine cmap chrlens clip st line =
      coordOutcome chrlens clip st
        (cmap.mapPos sid r0 (if r1 ≥ r0 then -1 else 1))
        (cmap.mapPos sid r1 (if r1 ≥ r0 then 1 else -1)) rest := by
  unfold processLine coordStep
  simp only [hne, hgt, htb, hsp, h0, h1, hsid, if_neg, Bool.false_eq_true, if_false,
    Bool.not_false, if_true]
  by_cases hf : r1 ≥ r0 <;> simp [hf]


/-- C5: for every well-formed Coordinate line, strand is determined by
`forward = end >= start` (here `r1 ≥ r0`), and the translator is consulted
with the outward biases: on the forward strand the start endpoint uses bias
`-1` (round to lower value) and the end endpoint bias `1` (round to higher
value); on the reverse strand the two biases swap.  The whole step is the
three-way classification `coordOutcome` of exactly those two translator
results. -/
theorem c5_strand_biases (cmap : CoordMapper) (chrlens : Chrlens) (clip : Bool)
    (st : TState) (line c0 c1 : String) (rest : List String) (r0 r1 : Int) (sid : String)
    (hne : line ≠ "") (hgt : strStarts line ">" = false) (htb : strStarts line "\t" = false)
    (hsp : splitTabs line = c0 :: c1 :: rest)
    (h0 : pyInt c0 = some r0) (h1 : pyInt c1 = some r1)
    (hsid : st.seqid = some sid) :
    processLine cmap chrlens clip st line =
      coordOutcome chrlens clip st
        (cmap.mapPos sid r0 (if r1 ≥ r0 then -1 else 1))
        (cmap.mapPos sid r1 (if r1 ≥ r0 then 1 else -1)) rest :=
  processLine_coord cmap chrlens clip st line c0 c1 rest r0 r1 sid hne hgt htb hsp h0 h1 hsid

/-- Witness for C5 at a concrete forward-strand line. -/
theorem c5_strand_biases_witness :
    processLine idMapper noLens false ⟨some "X", none, none⟩ "2\t7\tg" =
      coordOutcome noLens false ⟨some "X", none, none⟩
        (idMapper.mapPos "X" 2 (if (7:Int) ≥ 2 then -1 else 1))
        (idMapper.mapPos "X" 7 (if (7:Int) ≥ 2 then 1 else -1)) ["g"] :=
  c5_strand_biases idMapper noLens false ⟨some "X", none, none⟩ "2\t7\tg" "2" "7" ["g"] 2 7 "X"
    (by decide) (by decide) (by decide) rfl rfl rfl rfl

/-- C1: for a Coordinate line with exactly one endpoint unmapped by the
translator: with clip mode disabled the Feature is dropped (no output line,
retain flag false); with clip mode enabled the line is retained, and the
unmapped endpoint is replaced by the open marker — the first column (the
feature's 5-prime endpoint) becomes `<1`, the second column (the 3-prime
endpoint) becomes `>LEN` where `LEN` is the precomputed alternate-assembly
length of the mapped alternate sequence id. -/
theorem c1_overhang_clip_policy (cmap : CoordMapper) (chrlens : Chrlens)
    (st : TState) (line c0 c1 : String) (rest : List String) (r0 r1 : Int)
    (sid aid : String) (L : Nat) (m0 m1 : Option Int)
    (hne : line ≠ "") (hgt : strStarts line ">" = false) (htb : strStarts line "\t" = false)
    (hsp : splitTabs line = c0 :: c1 :: rest)
    (h0 : pyInt c0 = some r0) (h1 : pyInt c1 = some r1)
    (hsid : st.seqid = some sid) (haid : st.altid = some aid) (hL : chrlens aid = some L)
    (hm0 : cmap.mapPos sid r0 (if r1 ≥ r0 then -1 else 1) = m0)
    (hm1 : cmap.mapPos sid r1 (if r1 ≥ r0 then 1 else -1) = m1) :
    (m0.isNone ≠ m1.isNone →
       processLine cmap chrlens false st line =
         .ok ({ st with feature_keep := some false }, [])) ∧
    (∀ b, m0 = none → m1 = some b →
       processLine cmap chrlens true st line =
         .ok (st, [joinTabs "<1" (toString b :: rest)])) ∧
    (∀ a, m0 = some a → m1 = none →
       processLine cmap chrlens true st line =
         .ok (st, [joinTabs (toString a) ((">" ++ toString L) :: rest)])) := by
  refine ⟨?_, ?_, ?_⟩
  · intro hxor
    rw [processLine_coord cmap chrlens false st line c0 c1 rest r0 r1 sid
      hne hgt htb hsp h0 h1 hsid, hm0, hm1]
    rcases m0 with _ | a <;> rcases m1 with _ | b <;>
      simp_all [coordOutcome, truthy]
  · intro b he0 he1
    subst he0; subst he1
    rw [processLine_coord cmap chrlens true st line c0 c1 rest r0 r1 sid
      hne hgt htb hsp h0 h1 hsid, hm0, hm1]
    simp [coordOutcome, truthy]
  · intro a he0 he1
    subst he0; subst he1
    rw [processLine_coord cmap chrlens true st line c0 c1 rest r0 r1 sid
      hne hgt htb hsp h0 h1 hsid, hm0, hm1]
    simp [coordOutcome, truthy, haid, hL]


/-- Witness for C1 at a concrete right-overhanging line under clip mode. -/
theorem c1_overhang_clip_policy_witness :
    1 ≤ (3:Int) ∧
    processLine gapMapper demoLens true ⟨some "X", some "Y", some true⟩ "3\t4\tCDS" =
      .ok (⟨some "X", some "Y", some true⟩, ["3\t>580\tCDS"]) :=
  ⟨by decide,
   (c1_overhang_clip_policy gapMapper demoLens ⟨some "X", some "Y", some true⟩ "3\t4\tCDS" "3" "4" ["CDS"]
      3 4 "X" "Y" 580 (some 3) none
      (by decide) (by decide) (by decide) rfl rfl rfl rfl rfl rfl rfl rfl).2.2 3 rfl rfl⟩

/-- C3: for a Coordinate line both of whose endpoints the translator maps
(to genuine 1-based positions, the translator being monotone across the
outward biases as a real base-correspondence is), the Feature is retained,
the output line's first two columns are the mapped endpoints printed as
plain integers with all remaining columns unchanged, and the strand (the
sign of end − start, with ties forward) is preserved. -/
theorem c3_both_mapped (cmap : CoordMapper) (chrlens : Chrlens) (clip : Bool)
    (st : TState) (line c0 c1 : String) (rest : List String) (r0 r1 : Int)
    (sid : String) (a b : Int)
    (hne : line ≠ "") (hgt : strStarts line ">" = false) (htb : strStarts line "\t" = false)
    (hsp : splitTabs line = c0 :: c1 :: rest)
    (h0 : pyInt c0 = some r0) (h1 : pyInt c1 = some r1)
    (hsid : st.seqid = some sid)
    (hpos : ∀ s p bias q, cmap.mapPos s p bias = some q → 1 ≤ q)
    (hmono : ∀ s p q x y, p < q →
       cmap.mapPos s p (-1) = some x → cmap.mapPos s q 1 = some y → x < y)
    (hbias : ∀ s p x y,
       cmap.mapPos s p (-1) = some x → cmap.mapPos s p 1 = some y → x ≤ y)
    (hm0 : cmap.mapPos sid r0 (if r1 ≥ r0 then -1 else 1) = some a)
    (hm1 : cmap.mapPos sid r1 (if r1 ≥ r0 then 1 else -1) = some b) :
    processLine cmap chrlens clip st line =
      .ok ({ st with feature_keep := some true },
           [joinTabs (toString a) (toString b :: rest)]) ∧
    ((r1 ≥ r0) ↔ (b ≥ a)) := by
  have ha : 1 ≤ a := hpos _ _ _ _ hm0
  have hb : 1 ≤ b := hpos _ _ _ _ hm1
  constructor
  · rw [processLine_coord cmap chrlens clip st line c0 c1 rest r0 r1 sid
      hne hgt htb hsp h0 h1 hsid, hm0, hm1]
    have ta : (a != 0) = true := by simp; omega
    have tb : (b != 0) = true := by simp; omega
    simp [coordOutcome, truthy, ta, tb]
  · by_cases hf : r1 ≥ r0
    · rw [if_pos hf] at hm0 hm1
      constructor
      · intro _
        rcases lt_or_eq_of_le hf with hlt | heq
        · exact le_of_lt (hmono sid r0 r1 a b hlt hm0 hm1)
        · rw [heq] at hm0
          exact hbias sid r1 a b hm0 hm1
      · intro _; exact hf
    · rw [if_neg hf] at hm0 hm1
      have hlt : r1 < r0 := lt_of_not_ge hf
      have hba : b < a := hmono sid r1 r0 b a hlt hm1 hm0
      constructor
      · intro h'; exact absurd h' hf
      · intro h'; omega

/-- Witness for C3 at a concrete line under a positive identity translator. -/
theorem c3_both_mapped_witness :
    processLine posMapper noLens false ⟨some "X", none, some true⟩ "3\t5\tgene" =
      .ok (⟨some "X", none, some true⟩, ["3\t5\tgene"]) ∧ ((5:Int) ≥ 3 ↔ (5:Int) ≥ 3) :=
  c3_both_mapped posMapper noLens false ⟨some "X", none, some true⟩ "3\t5\tgene" "3" "5" ["gene"]
    3 5 "X" 3 5
    (by decide) (by decide) (by decide) rfl rfl rfl rfl
    (by intro s p bias q h; simp [posMapper] at h; omega)
    (by intro s p q x y hpq h1 h2; simp [posMapper] at h1 h2; omega)
    (by intro s p x y h1 h2; simp [posMapper] at h1 h2; omega)
    rfl rfl


theorem runLines_quals (cmap : CoordMapper) (chrlens : Chrlens) (clip : Bool)
    (st : TState) (hfk : st.feature_keep = some false) :
    ∀ (quals rest : List String), (∀ q ∈ quals, strStarts q "\t" = true) →
      runLines cmap chrlens clip st (quals ++ rest) = runLines cmap chrlens clip st rest := by
  intro quals
  induction quals with
  | nil => intro rest _; rfl
  | cons q qs ih =>
    intro rest hq
    have hqt : strStarts q "\t" = true := hq q (by simp)
    obtain ⟨hne, hgt⟩ := strStarts_tab hqt
    have hstep : processLine cmap chrlens clip st q = .ok (st, []) := by
      unfold processLine qualStep
      simp [hne, hgt, hqt, hfk]
    simp only [List.cons_append, runLines, hstep, List.append_eq]
    rw [ih rest (fun x hx => hq x (by simp [hx]))]
    simp

/-- C4: for a Coordinate line both of whose endpoints are unmapped,
neither the Coordinate line nor any number of trailing Qualifier lines
contributes output: the run on the whole Feature equals the run on the
remainder, from the state whose retain flag is false. -/
theorem c4_feature_dropped_whole (cmap : CoordMapper) (chrlens : Chrlens) (clip : Bool)
    (st : TState) (line c0 c1 : String) (rest : List String) (r0 r1 : Int) (sid : String)
    (quals rest2 : List String)
    (hne : line ≠ "") (hgt : strStarts line ">" = false) (htb : strStarts line "\t" = false)
    (hsp : splitTabs line = c0 :: c1 :: rest)
    (h0 : pyInt c0 = some r0) (h1 : pyInt c1 = some r1)
    (hsid : st.seqid = some sid)
    (hm0 : cmap.mapPos sid r0 (if r1 ≥ r0 then -1 else 1) = none)
    (hm1 : cmap.mapPos sid r1 (if r1 ≥ r0 then 1 else -1) = none)
    (hquals : ∀ q ∈ quals, strStarts q "\t" = true) :
    runLines cmap chrlens clip st (line :: (quals ++ rest2)) =
      runLines cmap chrlens clip { st with feature_keep := some false } rest2 := by
  have hstep : processLine cmap chrlens clip st line =
      .ok ({ st with feature_keep := some false }, []) := by
    rw [processLine_coord cmap chrlens clip st line c0 c1 rest r0 r1 sid
      hne hgt htb hsp h0 h1 hsid, hm0, hm1]
    rfl
  simp only [runLines, hstep]
  rw [runLines_quals cmap chrlens clip { st with feature_keep := some false } rfl quals rest2 hquals]
  simp

/-- Witness for C4 at a concrete Feature with two Qualifier lines. -/
theorem c4_feature_dropped_whole_witness :
    runLines noneMapper noLens false ⟨some "X", some "X", some true⟩
      ["1\t2\tg", "\tq1", "\tq2"] =
      runLines noneMapper noLens false ⟨some "X", some "X", some false⟩ [] :=
  c4_feature_dropped_whole noneMapper noLens false ⟨some "X", some "X", some true⟩ "1\t2\tg" "1" "2" ["g"]
    1 2 "X" ["\tq1", "\tq2"] []
    (by decide) (by decide) (by decide) rfl rfl rfl rfl rfl rfl (by decide)

/-- C6: every Qualifier line containing the protein-identifier marker is
suppressed regardless of the governing Feature's retain flag, and every
other Qualifier line of a retained Feature is emitted unchanged. -/
theorem c6_protein_id_filter (cmap : CoordMapper) (chrlens : Chrlens) (clip : Bool)
    (st : TState) (line : String) (b : Bool)
    (hq : strStarts line "\t" = true) (hfk : st.feature_keep = some b) :
    (hasProteinId line = true → processLine cmap chrlens clip st line = .ok (st, [])) ∧
    (b = true → hasProteinId line = false →
       processLine cmap chrlens clip st line = .ok (st, [line])) := by
  obtain ⟨hne, hgt⟩ := strStarts_tab hq
  constructor
  · intro hp
    unfold processLine qualStep
    rcases b with _ | _ <;> simp [hne, hgt, hq, hfk, hp]
  · intro hb hp
    subst hb
    unfold processLine qualStep
    simp [hne, hgt, hq, hfk, hp]

/-- Witness for C6 at a concrete protein-identifier Qualifier line. -/
theorem c6_protein_id_filter_witness :
    processLine idMapper noLens false ⟨some "X", some "X", some true⟩
      "\t\t\tprotein_id\tABC" = .ok (⟨some "X", some "X", some true⟩, []) :=
  (c6_protein_id_filter idMapper noLens false ⟨some "X", some "X", some true⟩
    "\t\t\tprotein_id\tABC" true (by decide) rfl).1 (by decide)

/-- C7 (amended): blank lines are passed through, not suppressed — the
blank branch of the loop is a no-op and the unconditional write still runs,
so each blank input line is written as an empty output line, leaving the
state unchanged. -/
theorem c7_blank_passthrough (cmap : CoordMapper) (chrlens : Chrlens) (clip : Bool) (st : TState) :
    processLine cmap chrlens clip st "" = .ok (st, [""]) := rfl

/-- C7 counterexample: a blank input line appears in the output, refuting
the claim that blank lines are never written. -/
theorem c7_blank_emitted_cex : "" ∈ (tbl_transfer idMapper noLens false [""]).1 := by decide

/-- C2 (code bug, evaluated at the failing input): the clip branch never
assigns `feature_keep`, so a clip-retained Feature that follows a dropped
Feature keeps the stale `false` flag: its Coordinate line is emitted but
its Qualifier line is suppressed, contradicting the invariant that the
retain flag equals the Coordinate Handler's decision. -/
theorem c2_clip_stale_flag :
    tbl_transfer gapMapper demoLens true
      [">Feature gb|X|", "1\t2\tgene", "3\t4\tCDS", "\t\t\tproduct\tfoo"] =
      ([">Feature Y", "3\t>580\tCDS"], none) ∧
    "\t\t\tproduct\tfoo" ∉ (tbl_transfer gapMapper demoLens true
      [">Feature gb|X|", "1\t2\tgene", "3\t4\tCDS", "\t\t\tproduct\tfoo"]).1 :=
  ⟨rfl, by decide⟩


theorem mk_append (a b : List Char) : String.mk a ++ String.mk b = String.mk (a ++ b) := rfl

theorem joinTabsChars_cons (c : Char) (g : List Char) (gs : List (List Char)) :
    joinTabsChars (c :: g) gs = c :: joinTabsChars g gs := by
  cases gs <;> simp [joinTabsChars]

theorem splitTabsChars_join (cs : List Char) :
    joinTabsChars (splitTabsChars cs).1 (splitTabsChars cs).2 = cs := by
  induction cs with
  | nil => rfl
  | cons c rest ih =>
    simp only [splitTabsChars]
    by_cases hc : c = '\t'
    · simp only [hc, if_pos rfl]
      simp [joinTabsChars, ih]
    · simp only [if_neg hc]
      simp [joinTabsChars_cons, ih]

theorem joinTabs_mk (g : List Char) (gs : List (List Char)) :
    joinTabs (String.mk g) (gs.map String.mk) = String.mk (joinTabsChars g gs) := by
  induction gs generalizing g with
  | nil => rfl
  | cons g1 gs ih =>
    simp only [List.map, joinTabs, joinTabsChars]
    rw [ih]
    have ht : ("\t" : String) = String.mk ['\t'] := rfl
    rw [ht, mk_append, mk_append]
    simp

theorem joinTabs_splitTabs {s x : String} {xs : List String}
    (h : splitTabs s = x :: xs) : joinTabs x xs = s := by
  unfold splitTabs at h
  injection h with h1 h2
  rw [← h1, ← h2]
  rw [joinTabs_mk]
  rw [splitTabsChars_join]


theorem runLines_identity (chrlens : Chrlens) (clip : Bool) :
    ∀ (doc : List String) (h : Bool) (st : TState), wellBehaved h doc = true →
      (h = true → st.seqid.isSome = true ∧ st.feature_keep = some true) →
      runLines idMapper chrlens clip st doc = (doc.map rewriteHeaderLine, none) := by
  intro doc
  induction doc with
  | nil => intro h st _ _; rfl
  | cons l ls ih =>
    intro h st hwb hst
    have hwb' := hwb
    simp only [wellBehaved, Bool.and_eq_true] at hwb'
    obtain ⟨hn, hw⟩ := hwb'
    by_cases hb : l = ""
    · subst hb
      have hgt0 : strStarts "" ">" = false := rfl
      have hstep : processLine idMapper chrlens clip st "" = .ok (st, [""]) := rfl
      simp only [runLines, hstep]
      rw [ih h st (by simpa [hgt0] using hw) hst]
      simp [rewriteHeaderLine, hgt0]
    · by_cases hgt : strStarts l ">" = true
      · have hfw : headerWF l = true := by
          simpa [niceLine, hb, hgt] using hn
        rw [headerWF, Bool.and_eq_true] at hfw
        obtain ⟨hfe, hwk⟩ := hfw
        have hstep : processLine idMapper chrlens clip st l =
            .ok (⟨some (headerAcc l), some (headerAcc l), some true⟩,
                 [">Feature " ++ headerAcc l]) := by
          unfold processLine headerStep
          simp [hb, hgt, hfe, hwk, idMapper, headerAcc]
        simp only [runLines, hstep]
        rw [ih true ⟨some (headerAcc l), some (headerAcc l), some true⟩
          (by simpa [hgt] using hw) (by intro _; exact ⟨rfl, rfl⟩)]
        simp [rewriteHeaderLine, hgt]
      · by_cases htb : strStarts l "\t" = true
        · -- qualifier line
          cases h with
          | false =>
            exfalso
            simp [niceLine, hb, hgt, htb] at hn
          | true =>
          have hp : hasProteinId l = false := by
            simpa [niceLine, hb, hgt, htb] using hn
          obtain ⟨hsid, hfk⟩ := hst rfl
          have hstep : processLine idMapper chrlens clip st l = .ok (st, [l]) := by
            unfold processLine qualStep
            simp [hb, hgt, htb, hfk, hp]
          simp only [runLines, hstep]
          rw [ih true st (by simpa [hgt] using hw) hst]
          simp [rewriteHeaderLine, hgt]
        · -- coordinate line
          have htb' : strStarts l "\t" = false := by
            simp only [Bool.not_eq_true] at htb; exact htb
          cases h with
          | false =>
            exfalso
            simp [niceLine, hb, hgt, htb'] at hn
          | true =>
          have hcc : (match splitTabs l with
              | c0 :: c1 :: _ => canonCoord c0 && canonCoord c1
              | _ => false) = true := by
            simpa [niceLine, hb, hgt, htb'] using hn
          obtain ⟨hsid, hfk⟩ := hst rfl
          obtain ⟨sid, hsid'⟩ := Option.isSome_iff_exists.mp hsid
          rcases hsp : splitTabs l with _ | ⟨c0, _ | ⟨c1, restL⟩⟩
          · rw [hsp] at hcc; simp at hcc
          · rw [hsp] at hcc; simp at hcc
          · rw [hsp] at hcc
            rw [Bool.and_eq_true] at hcc
            obtain ⟨hc0, hc1⟩ := hcc
            rcases hpi0 : pyInt c0 with _ | v0
            · rw [canonCoord, hpi0] at hc0; simp at hc0
            · rcases hpi1 : pyInt c1 with _ | v1
              · rw [canonCoord, hpi1] at hc1; simp at hc1
              · rw [canonCoord, hpi0] at hc0
                rw [canonCoord, hpi1] at hc1
                simp only [Bool.and_eq_true, beq_iff_eq, bne_iff_ne] at hc0 hc1
                obtain ⟨hs0, hz0⟩ := hc0
                obtain ⟨hs1, hz1⟩ := hc1
                have hstep : processLine idMapper chrlens clip st l =
                    .ok ({ st with feature_keep := some true }, [l]) := by
                  rw [processLine_coord idMapper chrlens clip st l c0 c1 restL v0 v1 sid
                    hb (Bool.not_eq_true _ ▸ hgt : strStarts l ">" = false) htb' hsp hpi0 hpi1 hsid']
                  have e0 : idMapper.mapPos sid v0 (if v1 ≥ v0 then -1 else 1) = some v0 := rfl
                  have e1 : idMapper.mapPos sid v1 (if v1 ≥ v0 then 1 else -1) = some v1 := rfl
                  rw [e0, e1]
                  unfold coordOutcome
                  have t0 : truthy (some v0) = true := by simp [truthy]; omega
                  have t1 : truthy (some v1) = true := by simp [truthy]; omega
                  simp only [t0, t1, Bool.and_self, if_pos rfl, Option.getD]
                  rw [hs0, hs1]
                  rw [joinTabs_splitTabs hsp]
                  rfl
                simp only [runLines, hstep]
                rw [ih true { st with feature_keep := some true }
                  (by simpa [hgt] using hw)
                  (by intro hh'; exact ⟨by simpa using hsid, rfl⟩)]
                simp [rewriteHeaderLine, hgt]


/-- C9 (amended): on a well-behaved document (Header-led, Coordinate
endpoints written canonically and nonzero, no protein-identifier Qualifier
lines), the transfer under the identity translator reproduces the document
exactly, up to the accession-wrapper rewriting of Header lines. -/
theorem c9_identity_roundtrip (chrlens : Chrlens) (clip : Bool) (doc : List String)
    (hdoc : wellBehaved false doc = true) :
    tbl_transfer idMapper chrlens clip doc = (doc.map rewriteHeaderLine, none) :=
  runLines_identity chrlens clip doc false initState hdoc
    (by intro hh; exact absurd hh (by decide))

/-- Witness for C9 on a concrete four-line document. -/
theorem c9_identity_roundtrip_witness :
    wellBehaved false [">Feature gb|AB|", "", "5\t3\tgene", "\tnote\thi"] = true ∧
    tbl_transfer idMapper noLens false [">Feature gb|AB|", "", "5\t3\tgene", "\tnote\thi"] =
      ([">Feature AB", "", "5\t3\tgene", "\tnote\thi"], none) :=
  ⟨by decide, c9_identity_roundtrip noLens false [">Feature gb|AB|", "", "5\t3\tgene", "\tnote\thi"] (by decide)⟩

/-- C9 counterexample: a document containing a protein-identifier
Qualifier line does not round-trip under the identity translator — that
line is dropped from the output. -/
theorem c9_protein_id_cex :
    (tbl_transfer idMapper noLens false [">Feature gb|X|", "\tprotein_id"]).1 ≠
      List.map rewriteHeaderLine [">Feature gb|X|", "\tprotein_id"] := by decide

theorem runLines_blanks (cmap : CoordMapper) (chrlens : Chrlens) (clip : Bool) :
    ∀ (n : Nat) (st : TState) (ls : List String),
      runLines cmap chrlens clip st (List.replicate n "" ++ ls) =
        (List.replicate n "" ++ (runLines cmap chrlens clip st ls).1,
         (runLines cmap chrlens clip st ls).2) := by
  intro n
  induction n with
  | zero => intro st ls; simp
  | succ n ih =>
    intro st ls
    have hstep : processLine cmap chrlens clip st "" = .ok (st, [""]) := rfl
    simp only [List.replicate_succ, List.cons_append, runLines, hstep, List.append_eq,
      List.nil_append]
    rw [ih st ls]

theorem processLine_undef_seqid (cmap : CoordMapper) (chrlens : Chrlens) (clip : Bool)
    (st : TState) (line : String) (a b : Int)
    (h : coordEnds line = some (a, b)) (hsq : st.seqid = none) :
    processLine cmap chrlens clip st line = .error .nameSeqid := by
  unfold coordEnds at h
  by_cases hcs : coordShape line = true
  · rw [if_pos hcs] at h
    rw [coordShape] at hcs
    simp only [Bool.and_eq_true, bne_iff_ne, ne_eq, Bool.not_eq_true'] at hcs
    obtain ⟨⟨hne, hgt⟩, htb⟩ := hcs
    rcases hsp : splitTabs line with _ | ⟨c0, _ | ⟨c1, restL⟩⟩
    · rw [hsp] at h; simp at h
    · rw [hsp] at h; simp at h
    · rcases hpi0 : pyInt c0 with _ | r0
      · exfalso; rw [hsp] at h; simp [hpi0] at h
      · rcases hpi1 : pyInt c1 with _ | r1
        · exfalso; rw [hsp] at h; simp [hpi0, hpi1] at h
        · unfold processLine coordStep
          simp [hne, hgt, htb, hsp, hpi0, hpi1, hsq]
  · rw [if_neg hcs] at h
    exact absurd h (by simp)

end Ncbi


namespace Ncbi

theorem strStarts_gt {q : String} (h : strStarts q ">" = true) :
    q ≠ "" ∧ strStarts q "\t" = false := by
  have hdt : (">" : String).data = ['>'] := rfl
  have hgt : ("\t" : String).data = ['\t'] := rfl
  unfold strStarts at h ⊢
  rcases hd : q.data with _ | ⟨c, cs⟩
  · rw [hdt, hd] at h
    simp [List.isPrefixOf] at h
  · rw [hdt] at h
    simp only [hd] at h
    simp only [hgt]
    simp [List.isPrefixOf] at h ⊢
    constructor
    · intro hq
      rw [hq] at hd
      have h0 : ([] : List Char) = c :: cs := hd
      exact List.noConfusion h0
    · subst h
      decide

theorem stOK_setFlag {st : TState} (hok : stOK st = true) (b : Bool) :
    stOK { st with feature_keep := some b } = true := by
  rw [stOK] at hok ⊢
  simp only [Bool.and_eq_true] at hok ⊢
  exact ⟨hok.1, rfl⟩

theorem headerStep_error {cmap : CoordMapper} {line : String} {e : Err}
    (h : headerStep cmap line = .error e) :
    e = .notFeature ∨ e = .notGenbank ∨ e = .keyMapId := by
  unfold headerStep at h
  split at h
  · split at h
    · split at h
      · injection h with he; subst he; simp
      · exact absurd h (by simp)
    · injection h with he; subst he; simp
  · injection h with he; subst he; simp

theorem headerStep_ok_stOK {cmap : CoordMapper} {line : String} {st' : TState}
    {out : List String} (h : headerStep cmap line = .ok (st', out)) :
    stOK st' = true := by
  unfold headerStep at h
  split at h
  · split at h
    · split at h
      · simp at h
      · injection h with hp
        injection hp with hp1 hp2
        subst hp1
        rfl
    · simp at h
  · simp at h

theorem qualStep_error {st : TState} {line : String} {e : Err}
    (h : qualStep st line = .error e) :
    e = .nameFeatureKeep ∧ st.feature_keep = none := by
  unfold qualStep at h
  split at h
  · rename_i hfk
    injection h with he; subst he; exact ⟨rfl, hfk⟩
  · split at h
    · split at h <;> simp at h
    · simp at h

theorem qualStep_ok {st : TState} {line : String} {st' : TState} {out : List String}
    (h : qualStep st line = .ok (st', out)) : st' = st := by
  unfold qualStep at h
  split at h
  · simp at h
  · split at h
    · split at h <;> (injection h with hp; exact (congrArg Prod.fst hp).symm)
    · injection h with hp; exact (congrArg Prod.fst hp).symm

theorem coordOutcome_error {chrlens : Chrlens} {clip : Bool} {st : TState}
    {m0 m1 : Option Int} {rest : List String} {e : Err} {aid : String}
    (haid : st.altid = some aid)
    (h : coordOutcome chrlens clip st m0 m1 rest = .error e) :
    e = .keyChrlen := by
  unfold coordOutcome at h
  split at h
  · simp at h
  · split at h
    · simp at h
    · split at h
      · split at h
        · simp at h
        · rw [haid] at h
          simp only [] at h
          split at h
          · injection h with he; exact he.symm
          · simp at h
      · simp at h

theorem coordOutcome_ok_stOK {chrlens : Chrlens} {clip : Bool} {st : TState}
    {m0 m1 : Option Int} {rest : List String} {st' : TState} {out : List String}
    (hok : stOK st = true)
    (h : coordOutcome chrlens clip st m0 m1 rest = .ok (st', out)) :
    stOK st' = true := by
  unfold coordOutcome at h
  split at h
  · injection h with hp
    injection hp with hp1 hp2
    subst hp1
    exact stOK_setFlag hok true
  · split at h
    · injection h with hp
      injection hp with hp1 hp2
      subst hp1
      exact stOK_setFlag hok false
    · split at h
      · split at h
        · injection h with hp
          injection hp with hp1 hp2
          subst hp1
          exact hok
        · split at h
          · simp at h
          · split at h
            · simp at h
            · injection h with hp
              injection hp with hp1 hp2
              subst hp1
              exact hok
      · injection h with hp
        injection hp with hp1 hp2
        subst hp1
        exact stOK_setFlag hok false

theorem coordStep_error {cmap : CoordMapper} {chrlens : Chrlens} {clip : Bool}
    {st : TState} {line : String} {e : Err} {sid aid : String}
    (hsid : st.seqid = some sid) (haid : st.altid = some aid)
    (h : coordStep cmap chrlens clip st line = .error e) :
    e = .oneColumn ∨ e = .badInt ∨ e = .keyChrlen := by
  unfold coordStep at h
  split at h
  · split at h
    · injection h with he; subst he; simp
    · split at h
      · injection h with he; subst he; simp
      · rw [hsid] at h
        simp only [] at h
        split at h <;> exact Or.inr (Or.inr (coordOutcome_error haid h))
  · injection h with he; subst he; simp

theorem coordStep_ok_stOK {cmap : CoordMapper} {chrlens : Chrlens} {clip : Bool}
    {st : TState} {line : String} {st' : TState} {out : List String}
    (hok : stOK st = true) (h : coordStep cmap chrlens clip st line = .ok (st', out)) :
    stOK st' = true := by
  unfold coordStep at h
  split at h
  · split at h
    · simp at h
    · split at h
      · simp at h
      · split at h
        · simp at h
        · split at h <;> exact coordOutcome_ok_stOK hok h
  · simp at h

theorem processLine_ok_stOK {cmap : CoordMapper} {chrlens : Chrlens} {clip : Bool}
    {st : TState} {line : String} {st' : TState} {out : List String}
    (hok : stOK st = true) (h : processLine cmap chrlens clip st line = .ok (st', out)) :
    stOK st' = true := by
  unfold processLine at h
  split at h
  · injection h with hp
    injection hp with hp1 hp2
    subst hp1
    exact hok
  · split at h
    · exact headerStep_ok_stOK h
    · split at h
      · exact coordStep_ok_stOK hok h
      · rw [qualStep_ok h]
        exact hok

theorem processLine_error_noName {cmap : CoordMapper} {chrlens : Chrlens} {clip : Bool}
    {st : TState} {line : String} {e : Err}
    (hok : stOK st = true) (h : processLine cmap chrlens clip st line = .error e) :
    isNameErr (some e) = false := by
  rw [stOK, Bool.and_eq_true, Bool.and_eq_true] at hok
  obtain ⟨⟨hs1, hs2⟩, hs3⟩ := hok
  obtain ⟨sid, hsid⟩ := Option.isSome_iff_exists.mp hs1
  obtain ⟨aid, haid⟩ := Option.isSome_iff_exists.mp hs2
  unfold processLine at h
  split at h
  · simp at h
  · split at h
    · rcases headerStep_error h with he | he | he <;> subst he <;> rfl
    · split at h
      · rcases coordStep_error hsid haid h with he | he | he <;> subst he <;> rfl
      · obtain ⟨he, hfk⟩ := qualStep_error h
        rw [hfk] at hs3
        simp at hs3

theorem processLine_preheader_error {cmap : CoordMapper} {chrlens : Chrlens} {clip : Bool}
    {st : TState} {line : String} {e : Err}
    (hgt : strStarts line ">" = true)
    (h : processLine cmap chrlens clip st line = .error e) :
    isNameErr (some e) = false := by
  obtain ⟨hne, _⟩ := strStarts_gt hgt
  unfold processLine at h
  rw [if_neg hne, if_pos hgt] at h
  rcases headerStep_error h with he | he | he <;> subst he <;> rfl

theorem runLines_noNameErr (cmap : CoordMapper) (chrlens : Chrlens) (clip : Bool) :
    ∀ (doc : List String) (h : Bool) (st : TState), headerLed h doc = true →
      (h = true → stOK st = true) →
      isNameErr (runLines cmap chrlens clip st doc).2 = false := by
  intro doc
  induction doc with
  | nil => intro h st _ _; rfl
  | cons l ls ih =>
    intro h st hled hst
    simp only [runLines]
    rcases hpl : processLine cmap chrlens clip st l with e | ⟨st', out⟩
    · show isNameErr (some e) = false
      by_cases hb : l = ""
      · subst hb
        exact absurd hpl (by simp [processLine])
      · by_cases hgt : strStarts l ">" = true
        · exact processLine_preheader_error hgt hpl
        · have hh : h = true := by
            have htmp := hled
            simp [headerLed, hb, hgt] at htmp
            exact htmp.1
          exact processLine_error_noName (hst hh) hpl
    · show isNameErr (runLines cmap chrlens clip st' ls).2 = false
      by_cases hb : l = ""
      · have hled' : headerLed h ls = true := by simpa [headerLed, hb] using hled
        exact ih h st' hled' (fun hh => processLine_ok_stOK (hst hh) hpl)
      · by_cases hgt : strStarts l ">" = true
        · have hled' : headerLed true ls = true := by
            simpa [headerLed, hb, hgt] using hled
          have hst' : stOK st' = true := by
            have hpl' : headerStep cmap l = .ok (st', out) := by
              unfold processLine at hpl
              rw [if_neg hb, if_pos hgt] at hpl
              exact hpl
            exact headerStep_ok_stOK hpl'
          exact ih true st' hled' (fun _ => hst')
        · have htmp := hled
          simp [headerLed, hb, hgt] at htmp
          obtain ⟨hh, hled'⟩ := htmp
          exact ih h st' hled' (fun _ => processLine_ok_stOK (hst hh) hpl)


/-- C10 (amended): a Qualifier line, or a Coordinate line that passes
format validation, reached before any Header makes the transfer fail by
reading an undefined context variable (`seqid`, respectively
`feature_keep`), producing no output for that line; and under the
precondition that a Header precedes every Coordinate and Qualifier line,
no undefined-variable failure ever occurs. -/
theorem c10_undefined_context :
    (∀ (cmap : CoordMapper) (chrlens : Chrlens) (clip : Bool) (n : Nat)
       (line : String) (rest : List String) (a b : Int),
       coordEnds line = some (a, b) →
       tbl_transfer cmap chrlens clip (List.replicate n "" ++ line :: rest) =
         (List.replicate n "", some .nameSeqid)) ∧
    (∀ (cmap : CoordMapper) (chrlens : Chrlens) (clip : Bool) (n : Nat)
       (line : String) (rest : List String),
       strStarts line "\t" = true →
       tbl_transfer cmap chrlens clip (List.replicate n "" ++ line :: rest) =
         (List.replicate n "", some .nameFeatureKeep)) ∧
    (∀ (cmap : CoordMapper) (chrlens : Chrlens) (clip : Bool) (doc : List String),
       headerLed false doc = true →
       isNameErr (tbl_transfer cmap chrlens clip doc).2 = false) := by
  refine ⟨?_, ?_, ?_⟩
  · intro cmap chrlens clip n line rest a b hce
    unfold tbl_transfer
    rw [runLines_blanks cmap chrlens clip n initState (line :: rest)]
    have hstep : processLine cmap chrlens clip initState line = .error .nameSeqid :=
      processLine_undef_seqid cmap chrlens clip initState line a b hce rfl
    simp [runLines, hstep]
  · intro cmap chrlens clip n line rest htb
    unfold tbl_transfer
    rw [runLines_blanks cmap chrlens clip n initState (line :: rest)]
    obtain ⟨hne, hgt⟩ := strStarts_tab htb
    have hstep : processLine cmap chrlens clip initState line = .error .nameFeatureKeep := by
      unfold processLine qualStep
      simp [hne, hgt, htb, initState]
    simp [runLines, hstep]
  · intro cmap chrlens clip doc hled
    exact runLines_noNameErr cmap chrlens clip doc false initState hled
      (by intro hh; exact absurd hh (by decide))

/-- Witness for C10 at a concrete headerless Coordinate line. -/
theorem c10_undefined_context_witness :
    tbl_transfer idMapper noLens false ["", "1\t2\tg"] = ([""], some Err.nameSeqid) :=
  c10_undefined_context.1 idMapper noLens false 1 "1\t2\tg" [] 1 2 rfl

/-- C10 counterexample: a malformed first Coordinate line fails with the
one-column format error, not by an undefined-variable read. -/
theorem c10_malformed_first_cex :
    coordShape "x" = true ∧
    tbl_transfer idMapper noLens false ["x"] = ([], some Err.oneColumn) ∧
    Err.oneColumn ≠ Err.nameSeqid ∧ Err.oneColumn ≠ Err.nameFeatureKeep :=
  ⟨by decide, rfl, by decide, by decide⟩


theorem coordOutcome_errCond (chrlens : Chrlens) (clip : Bool) (st : TState)
    (m0 m1 : Option Int) (rest : List String) :
    isErrB (coordOutcome chrlens clip st m0 m1 rest) =
      (clip && (m1.isNone && !m0.isNone &&
        (match st.altid with | none => true | some aid => (chrlens aid).isNone))) := by
  rcases m1 with _ | b
  · rcases m0 with _ | a
    · simp [coordOutcome, truthy, isErrB]
    · rcases hsa : st.altid with _ | aid
      · rcases clip with _ | _ <;> simp [coordOutcome, truthy, isErrB, hsa]
      · rcases hcl : chrlens aid with _ | len <;> rcases clip with _ | _ <;>
          simp [coordOutcome, truthy, isErrB, hsa, hcl]
  · rcases m0 with _ | a
    · rcases clip with _ | _ <;> simp [coordOutcome, truthy, isErrB]
    · rcases clip with _ | _ <;>
        by_cases ht : (truthy (some a) && truthy (some b)) = true <;>
          simp [coordOutcome, isErrB, ht]


theorem processLine_errCond (cmap : CoordMapper) (chrlens : Chrlens) (clip : Bool)
    (st : TState) (line : String) :
    isErrB (processLine cmap chrlens clip st line) = errCond cmap chrlens clip st line := by
  by_cases hb : line = ""
  · subst hb
    have h1 : strStarts "" ">" = false := rfl
    have h2 : strStarts "" "\t" = false := rfl
    simp [processLine, errCond, isErrB, malformedHeader, headerShape, malformedCoord,
      coordShape, coordEnds, qualShape, clipLenMissing, h1, h2]
  · by_cases hgt : strStarts line ">" = true
    · obtain ⟨_, htb⟩ := strStarts_gt hgt
      have hcs : coordShape line = false := by simp [coordShape, hgt]
      have hce : coordEnds line = none := by simp [coordEnds, hcs]
      have hlhs : processLine cmap chrlens clip st line = headerStep cmap line := by
        unfold processLine
        rw [if_neg hb, if_pos hgt]
      rw [hlhs]
      simp only [errCond, malformedHeader, malformedCoord, qualShape, headerShape, hgt,
        hce, hcs, htb, clipLenMissing, headerAcc, Option.isSome_none, Bool.false_and,
        Bool.and_false, Bool.or_false, Bool.false_or, Bool.true_and]
      by_cases hfe : strStarts line ">Feature " = true
      · by_cases hwk : wrapperOK (strTrim (strDrop line 9)) = true
        · have hwf : headerWF line = true := by
            rw [headerWF, hfe, hwk]; rfl
          rcases hmi : cmap.mapId (strInit (strDrop (strTrim (strDrop line 9)) 3))
            with _ | alt
          · have hhs : headerStep cmap line = .error .keyMapId := by
              unfold headerStep
              rw [if_pos hfe, if_pos hwk, hmi]
            simp [hhs, isErrB, hwf, hmi]
          · have hhs : headerStep cmap line =
                .ok (⟨some (strInit (strDrop (strTrim (strDrop line 9)) 3)), some alt,
                      some true⟩, [">Feature " ++ alt]) := by
              unfold headerStep
              rw [if_pos hfe, if_pos hwk, hmi]
            simp [hhs, isErrB, hwf, hmi]
        · have hwf : headerWF line = false := by
            simp [headerWF, hfe, hwk]
          have hhs : headerStep cmap line = .error .notGenbank := by
            unfold headerStep
            rw [if_pos hfe, if_neg hwk]
          simp [hhs, isErrB, hwf]
      · have hwf : headerWF line = false := by
          simp [headerWF, hfe]
        have hhs : headerStep cmap line = .error .notFeature := by
          unfold headerStep
          rw [if_neg hfe]
        simp [hhs, isErrB, hwf]
    · by_cases htb : strStarts line "\t" = true
      · obtain ⟨_, hgtf⟩ := strStarts_tab htb
        have hcs : coordShape line = false := by simp [coordShape, htb]
        have hce : coordEnds line = none := by simp [coordEnds, hcs]
        have hlhs : processLine cmap chrlens clip st line = qualStep st line := by
          unfold processLine
          rw [if_neg hb, if_neg hgt]
          simp [htb]
        rw [hlhs]
        simp only [errCond, malformedHeader, malformedCoord, qualShape, headerShape, hgtf,
          hce, hcs, htb, clipLenMissing, Option.isSome_none, Bool.false_and,
          Bool.and_false, Bool.or_false, Bool.false_or, Bool.true_and]
        rcases hfk : st.feature_keep with _ | fk
        · have hq : qualStep st line = .error .nameFeatureKeep := by
            unfold qualStep
            rw [hfk]
          simp [hq, isErrB]
        · have hq : isErrB (qualStep st line) = false := by
            unfold qualStep
            rw [hfk]
            rcases fk with _ | _ <;> by_cases hp : hasProteinId line = true <;>
              simp [isErrB, hp]
          simp [hq]
      · have htb' : strStarts line "\t" = false := Bool.not_eq_true _ ▸ htb
        have hgt' : strStarts line ">" = false := Bool.not_eq_true _ ▸ hgt
        have hcs : coordShape line = true := by
          simp [coordShape, hb, hgt', htb']
        have hlhs : processLine cmap chrlens clip st line =
            coordStep cmap chrlens clip st line := by
          unfold processLine
          rw [if_neg hb, if_neg hgt]
          simp [htb']
        rw [hlhs]
        simp only [errCond, malformedHeader, qualShape, headerShape, hgt', htb',
          Bool.false_and, Bool.and_false, Bool.or_false, Bool.false_or, Bool.true_and]
        rcases hsp : splitTabs line with _ | ⟨c0, _ | ⟨c1, restL⟩⟩
        · have hce : coordEnds line = none := by simp [coordEnds, hcs, hsp]
          have hstep : coordStep cmap chrlens clip st line = .error .oneColumn := by
            unfold coordStep
            rw [hsp]
          simp [hstep, isErrB, malformedCoord, hce, hcs, clipLenMissing]
        · have hce : coordEnds line = none := by simp [coordEnds, hcs, hsp]
          have hstep : coordStep cmap chrlens clip st line = .error .oneColumn := by
            unfold coordStep
            rw [hsp]
          simp [hstep, isErrB, malformedCoord, hce, hcs, clipLenMissing]
        · rcases hpi0 : pyInt c0 with _ | r0
          · have hce : coordEnds line = none := by simp [coordEnds, hcs, hsp, hpi0]
            have hstep : coordStep cmap chrlens clip st line = .error .badInt := by
              unfold coordStep
              simp only [hsp, hpi0]
            simp [hstep, isErrB, malformedCoord, hce, hcs, clipLenMissing]
          · rcases hpi1 : pyInt c1 with _ | r1
            · have hce : coordEnds line = none := by simp [coordEnds, hcs, hsp, hpi0, hpi1]
              have hstep : coordStep cmap chrlens clip st line = .error .badInt := by
                unfold coordStep
                simp only [hsp, hpi0, hpi1]
              simp [hstep, isErrB, malformedCoord, hce, hcs, clipLenMissing]
            · have hce : coordEnds line = some (r0, r1) := by
                simp [coordEnds, hcs, hsp, hpi0, hpi1]
              have hmc : malformedCoord line = false := by
                simp [malformedCoord, hce]
              rcases hsq : st.seqid with _ | sid
              · have hstep : coordStep cmap chrlens clip st line = .error .nameSeqid := by
                  unfold coordStep
                  simp only [hsp, hpi0, hpi1, hsq]
                simp [hstep, isErrB, hmc, hce, hsq, clipLenMissing]
              · have hstep : coordStep cmap chrlens clip st line =
                    if r1 ≥ r0 then
                      coordOutcome chrlens clip st
                        (cmap.mapPos sid r0 (-1)) (cmap.mapPos sid r1 1) restL
                    else
                      coordOutcome chrlens clip st
                        (cmap.mapPos sid r0 1) (cmap.mapPos sid r1 (-1)) restL := by
                  unfold coordStep
                  simp only [hsp, hpi0, hpi1, hsq]
                rw [hstep]
                by_cases hf : r1 ≥ r0
                · rw [if_pos hf, coordOutcome_errCond]
                  simp [hmc, hce, hsq, clipLenMissing, biasedMaps, hf]
                · rw [if_neg hf, coordOutcome_errCond]
                  simp [hmc, hce, hsq, clipLenMissing, biasedMaps, hf]


/-- C8 (amended): one step of the transfer raises an exception exactly when
the line is a malformed Header, a well-formed Header whose accession the
identifier translator cannot map, a malformed Coordinate line, a
well-formed Coordinate line with the active sequence id undefined, a
Qualifier line with the retain flag undefined, or, in clip mode, a
Coordinate line whose second endpoint is unmapped (first mapped) while the
alternate id or its precomputed length is missing; in particular an
unmapped endpoint never causes failure outside that last lookup. -/
theorem c8_failure_characterization (cmap : CoordMapper) (chrlens : Chrlens)
    (oob_clip : Bool) (st : TState) (line : String) :
    isErrB (processLine cmap chrlens oob_clip st line) =
      errCond cmap chrlens oob_clip st line :=
  processLine_errCond cmap chrlens oob_clip st line

/-- C8 counterexample: the transfer also fails on a document with no
malformed Header or Coordinate line at all, when a well-formed Header's
accession lies outside the identifier translator's domain. -/
theorem c8_unmappable_id_cex :
    malformedHeader ">Feature gb|X|" = false ∧
    malformedCoord ">Feature gb|X|" = false ∧
    (tbl_transfer noIdMapper noLens false [">Feature gb|X|"]).2 = some Err.keyMapId :=
  ⟨by decide, by decide, rfl⟩

end Ncbi
